import Mathlib

/-!
Shallow embedding of the Mesh Tunnel Orchestrator of `internal/quicmesh.go`
(package `quicmesh`): the packet-forwarding loop (`enableTrafficForwarding`),
the per-peer tunnel setup (`setupTunnel`), the NAT gating of `Start` /
`findPortBinding`, the retry loop (`RetryOperation`), and `Stop`.

Go maps become association lists, goroutine bodies become sequential state
transformers, and process termination via `logger.Fatalf` / `panic` becomes
an `Option`/explicit-exit result.
-/

set_option autoImplicit false

namespace QuicMesh

/-- A byte of a packet buffer (Go `byte`). -/
abbrev Byte := Nat

/-- Rendering of a 4-byte slice as Go's `net.IP.String()` dotted decimal:
`net.IP(packet[16:20]).String()` at quicmesh.go:232. -/
def ipv4String (bs : List Byte) : String :=
  String.intercalate "." (bs.map (fun b => toString b))

/-- Go map lookup on an association-list model of `map[string]α`
(first matching key wins; our inserts always cons, so this is the
latest binding, matching map overwrite semantics). -/
def lookupA {α : Type} : List (String × α) → String → Option α
  | [], _ => none
  | (k', v) :: rest, k => if k' = k then some v else lookupA rest k

/-- An established QUIC connection, keyed by the remote host
(`qn.connections : map[string]quic.Connection`, quicmesh.go:42). -/
structure Conn where
  host : String
deriving DecidableEq

/-- A logical client handle (`*Client`), as visible from quicmesh.go:
its remote endpoint, the connection it wraps (set by `SetConnection` or
`Dial`), and whether `AttachHandler` was called on it. -/
structure Client where
  endpoint : String
  conn : Option Conn
  handlerAttached : Bool
deriving DecidableEq

/-! ## Packet forwarding loop (`enableTrafficForwarding`, quicmesh.go:221-250)

The goroutine allocates `packet := make([]byte, 1500)` once and loops:
`n, err := qn.localIf.Read(packet)`; on error it calls `logger.Fatalf` and
`panic`; otherwise `dstIP := net.IP(packet[16:20])`, looks up
`qn.clients[dstIP.String()]` and, on a hit, `c.SendBytes(packet[:n])`
(a send error is only logged); on a miss it only logs. -/

/-- Effect of `qn.localIf.Read(packet)` returning `n = data.length` bytes on
the reused buffer: the first `n` bytes are overwritten, the tail keeps its
previous contents. -/
def readUpdate (packet data : List Byte) : List Byte :=
  data ++ packet.drop data.length

/-- `packet[16:20]`: the four bytes at offsets 16..19 of the buffer. -/
def extractDst (packet : List Byte) : List Byte :=
  (packet.drop 16).take 4

/-- `net.IP(packet[16:20]).String()`. -/
def dstString (packet : List Byte) : String :=
  ipv4String (extractDst packet)

/-- A send performed by the forwarding loop: the client-table key it was
routed to and the bytes handed to `SendBytes`. -/
structure Send where
  key : String
  payload : List Byte
deriving DecidableEq

/-- One read event delivered by the TUN device: `ok data` is a successful
read of `data.length` bytes, `err` a read error. -/
inductive ReadEvent where
  | ok (data : List Byte)
  | err
deriving DecidableEq

/-- One iteration of the forwarding loop after a successful read:
returns the updated buffer and the list of sends performed
(quicmesh.go:226-246). -/
def forwardStep (clients : List (String × Client)) (packet data : List Byte) :
    List Byte × List Send :=
  let packet' := readUpdate packet data
  let dst := dstString packet'
  match lookupA clients dst with
  | some _ => (packet', [⟨dst, packet'.take data.length⟩])
  | none => (packet', [])

/-- How the forwarding loop left off: `fatal` models `logger.Fatalf` + `panic`
on a read error (process termination); `running` means every supplied read
event was consumed and the loop is blocked on the next read. -/
inductive LoopExit where
  | fatal
  | running
deriving DecidableEq

/-- The forwarding loop over a finite prefix of read events, threading the
reused 1500-byte buffer: collects all sends and reports how the loop left
off (quicmesh.go:225-247). -/
def forwardLoop (clients : List (String × Client)) :
    List Byte → List ReadEvent → List Send × LoopExit
  | _, [] => ([], .running)
  | _, .err :: _ => ([], .fatal)
  | packet, .ok d :: rest =>
      let s := forwardStep clients packet d
      let r := forwardLoop clients s.1 rest
      (s.2 ++ r.1, r.2)

theorem readUpdate_take (packet d : List Byte) :
    (readUpdate packet d).take d.length = d := by
  simp [readUpdate, List.take_left]

theorem forwardStep_hit (clients : List (String × Client)) (packet d : List Byte)
    (c : Client) (h : lookupA clients (dstString (readUpdate packet d)) = some c) :
    forwardStep clients packet d =
      (readUpdate packet d, [⟨dstString (readUpdate packet d), d⟩]) := by
  simp only [forwardStep, h]
  rw [readUpdate_take]

theorem forwardStep_miss (clients : List (String × Client)) (packet d : List Byte)
    (h : lookupA clients (dstString (readUpdate packet d)) = none) :
    forwardStep clients packet d = (readUpdate packet d, []) := by
  simp only [forwardStep, h]

/-- Byte `j` of the buffer after a read: positions below `n` come from the
data just read, positions at or above `n` keep the previous buffer contents. -/
theorem getD_readUpdate (packet d : List Byte) (j : Nat) :
    (readUpdate packet d).getD j 0 =
      if j < d.length then d.getD j 0 else packet.getD j 0 := by
  by_cases h : j < d.length
  · simp only [readUpdate, List.getD_eq_getElem?_getD, if_pos h,
      List.getElem?_append_left h]
  · push_neg at h
    simp only [readUpdate, List.getD_eq_getElem?_getD, if_neg (Nat.not_lt.mpr h),
      List.getElem?_append_right h, List.getElem?_drop]
    congr 2
    omega

/-- Byte `i` of the extracted destination window is byte `16 + i` of the
buffer, for `i < 4` and a buffer of at least 20 bytes. -/
theorem extractDst_getD (l : List Byte) (i : Nat) (hi : i < 4) :
    (extractDst l).getD i 0 = l.getD (16 + i) 0 := by
  simp only [extractDst, List.getD_eq_getElem?_getD, List.getElem?_take, if_pos hi,
    List.getElem?_drop]

/-- Sample concrete data used by the witnesses below. -/
def sampleClient : Client := ⟨"10.0.0.3:5000", some ⟨"10.0.0.3"⟩, true⟩

def sampleClients : List (String × Client) := [("10.1.0.3", sampleClient)]

/-- A 20-byte IPv4 packet whose destination field (bytes 16..19) is 10.1.0.3. -/
def samplePacket : List Byte :=
  [69, 0, 0, 40, 0, 0, 0, 0, 64, 6, 0, 0, 10, 1, 0, 2, 10, 1, 0, 3]

/-- The zero-initialized 1500-byte device buffer (`make([]byte, 1500)`). -/
def zeroBuf : List Byte := List.replicate 1500 0

/-- C1: for every packet read from the device whose destination address
(bytes 16..19 of the buffer after the read) is a key of the client table,
the forwarding loop iteration sends exactly the `n` bytes just read,
unmodified, routed to that key, and performs no other send. -/
theorem forwardStep_routes_exact_bytes
    (clients : List (String × Client)) (packet d : List Byte) (c : Client)
    (h : lookupA clients (dstString (readUpdate packet d)) = some c) :
    (forwardStep clients packet d).2 = [⟨dstString (readUpdate packet d), d⟩] ∧
    ∀ s ∈ (forwardStep clients packet d).2,
      s.key = dstString (readUpdate packet d) ∧ s.payload = d := by
  have hs := forwardStep_hit clients packet d c h
  refine ⟨by rw [hs], ?_⟩
  intro s hsmem
  rw [hs] at hsmem
  simp only [List.mem_singleton] at hsmem
  subst hsmem
  exact ⟨rfl, rfl⟩

/-- Witness for C1: a concrete 20-byte packet destined to 10.1.0.3 is sent,
byte for byte, to the client registered under "10.1.0.3". -/
theorem forwardStep_routes_exact_bytes_witness :
    lookupA sampleClients (dstString (readUpdate zeroBuf samplePacket)) = some sampleClient ∧
    (forwardStep sampleClients zeroBuf samplePacket).2 =
      [⟨dstString (readUpdate zeroBuf samplePacket), samplePacket⟩] :=
  ⟨by decide, (forwardStep_routes_exact_bytes sampleClients zeroBuf samplePacket
      sampleClient (by decide)).1⟩

/-- C5: a packet whose extracted destination has no entry in the client
table is dropped: the loop performs no send for it, propagates no error,
and continues with the remaining read events. -/
theorem forwardLoop_drops_unknown_dst
    (clients : List (String × Client)) (packet d : List Byte) (rest : List ReadEvent)
    (h : lookupA clients (dstString (readUpdate packet d)) = none) :
    forwardLoop clients packet (.ok d :: rest) =
      forwardLoop clients (readUpdate packet d) rest := by
  simp only [forwardLoop, forwardStep_miss clients packet d h, List.nil_append]

/-- Witness for C5: with an empty client table a read packet is dropped and
the loop goes on to process the next read event. -/
theorem forwardLoop_drops_unknown_dst_witness :
    lookupA ([] : List (String × Client)) (dstString (readUpdate zeroBuf samplePacket)) = none ∧
    forwardLoop [] zeroBuf (.ok samplePacket :: [.ok samplePacket]) =
      forwardLoop [] (readUpdate zeroBuf samplePacket) [.ok samplePacket] :=
  ⟨rfl, forwardLoop_drops_unknown_dst [] zeroBuf samplePacket [.ok samplePacket] rfl⟩

/-- C10: on the 1500-byte buffer the destination extraction at offsets
16..19 is always in bounds (the window has length 4 for every read size
`n ≤ 1500`); window bytes below the read size come from the packet just
read, window bytes at or above it are residue of the previous buffer
contents — in particular for `n < 20` the last window byte is residue —
and the iteration still performs the routing lookup and sends
`packet[:n]` on a match. -/
theorem extractDst_inbounds_residue (packet d : List Byte)
    (hp : packet.length = 1500) (hd : d.length ≤ 1500) :
    (extractDst (readUpdate packet d)).length = 4 ∧
    (∀ i, i < 4 → 16 + i < d.length →
      (extractDst (readUpdate packet d)).getD i 0 = d.getD (16 + i) 0) ∧
    (∀ i, i < 4 → d.length ≤ 16 + i →
      (extractDst (readUpdate packet d)).getD i 0 = packet.getD (16 + i) 0) ∧
    (d.length < 20 →
      (extractDst (readUpdate packet d)).getD 3 0 = packet.getD 19 0) ∧
    (∀ clients (c : Client),
      lookupA clients (dstString (readUpdate packet d)) = some c →
      (forwardStep clients packet d).2 =
        [⟨dstString (readUpdate packet d), (readUpdate packet d).take d.length⟩]) := by
  refine ⟨?_, ?_, ?_, ?_, ?_⟩
  · simp only [extractDst, readUpdate, List.length_take, List.length_drop,
      List.length_append, hp]
    omega
  · intro i hi hlt
    rw [extractDst_getD _ i hi, getD_readUpdate, if_pos hlt]
  · intro i hi hge
    rw [extractDst_getD _ i hi, getD_readUpdate, if_neg (Nat.not_lt.mpr hge)]
  · intro hn
    have h19 : d.length ≤ 16 + 3 := by omega
    rw [extractDst_getD _ 3 (by omega), getD_readUpdate,
      if_neg (Nat.not_lt.mpr h19)]
  · intro clients c hc
    simp only [forwardStep, hc]

/-- Witness for C10: a 3-byte read into a buffer previously holding byte 7
everywhere leaves the window in bounds and its last byte equal to the old
buffer contents, not to the read data. -/
theorem extractDst_inbounds_residue_witness :
    (List.replicate 1500 7 : List Byte).length = 1500 ∧
    ([1, 2, 3] : List Byte).length ≤ 1500 ∧
    (extractDst (readUpdate (List.replicate 1500 7) [1, 2, 3])).length = 4 ∧
    (extractDst (readUpdate (List.replicate 1500 7) [1, 2, 3])).getD 3 0 =
      (List.replicate 1500 7 : List Byte).getD 19 0 := by
  have hp : (List.replicate 1500 7 : List Byte).length = 1500 :=
    List.length_replicate 1500 7
  have hd : ([1, 2, 3] : List Byte).length ≤ 1500 := by
    rw [List.length_cons, List.length_cons, List.length_cons, List.length_nil]
    omega
  have h := extractDst_inbounds_residue (List.replicate 1500 7) [1, 2, 3] hp hd
  refine ⟨hp, hd, h.1, h.2.2.2.1 ?_⟩
  rw [List.length_cons, List.length_cons, List.length_cons, List.length_nil]
  omega

/-! ## Per-peer tunnel setup (`setupTunnel`, quicmesh.go:165-218)

For each configured peer the client goroutine body is (quicmesh.go:170-216):
skip when `qn.clients[peer.allowedIPs[0]]` exists; `net.SplitHostPort` the
endpoint (`logger.Fatalf` on error); then `RetryOperation` runs a closure
that first reuses `qn.connections[host]` via `SetConnection` and otherwise
dials (`AttachHandler` on dial success only); on exhausted retries
`logger.Fatalf`; on success the client is registered under
`peer.allowedIPs[0]`.  We model each goroutine body as one sequential state
transformer, process-fatal paths as `none`. -/

/-- A configured peer: remote `endpoint` ("host:port") and its
`allowedIPs` (the first entry is the canonical routing key). -/
structure Peer where
  endpoint : String
  allowedIPs : List String
deriving DecidableEq

/-- The registry owned by `QuicMesh`: `connections : map[string]quic.Connection`
keyed by remote host and `clients : map[string]*Client` keyed by canonical
peer address (quicmesh.go:42-43), both empty at `NewQuicMesh`. -/
structure MeshState where
  connections : List (String × Conn)
  clients : List (String × Client)
deriving DecidableEq

/-- The empty registry created by `NewQuicMesh` (quicmesh.go:58-59). -/
def initialState : MeshState := ⟨[], []⟩

/-- Characters before the last colon of an endpoint, the host part found by
`net.SplitHostPort` (quicmesh.go:184). -/
def hostChars : List Char → Option (List Char)
  | [] => none
  | c :: rest =>
    match hostChars rest with
    | some h => some (c :: h)
    | none => if c = ':' then some [] else none

/-- The host part of "host:port", `none` when no colon is present
(then `net.SplitHostPort` errs and the goroutine hits `logger.Fatalf`). -/
def hostOf (endpoint : String) : Option String :=
  (hostChars endpoint.toList).map (fun cs => String.mk cs)

/-- How one peer's setup ended: skipped (client already registered), reused
(existing connection adopted without dialing), or dialed successfully after
`k` attempts.  Exhausted retries are process-fatal and modelled by `none`
results, not by an outcome. -/
inductive SetupOutcome where
  | skipped
  | reused
  | dialed (attempts : Nat)
deriving DecidableEq

/-- Number of network dial attempts an outcome performed. -/
def SetupOutcome.attempts : SetupOutcome → Nat
  | .skipped => 0
  | .reused => 0
  | .dialed k => k

/-- First attempt index (1-based count of attempts used) at which the dial
oracle succeeds, within `budget` attempts. -/
def firstSuccess (dial : Nat → Bool) : Nat → Nat → Option Nat
  | 0, _ => none
  | b + 1, i => if dial i then some 1 else (firstSuccess dial b (i + 1)).map (· + 1)

/-- One peer's setup goroutine body (quicmesh.go:170-216), sequentialized.
`dial i` is the outcome of the `i`-th `c.Dial()` attempt.  Returns `none`
on the process-fatal paths (`allowedIPs[0]` out of range panic,
`SplitHostPort` failure, exhausted retries).

Modelled from the spec: the bodies of `Client.Dial`, `SetConnection` and
`RetryOperation` are not under src/; per the spec a successful dial
"register[s] both Connection and Client" (Connection keyed by remote host)
and `RetryOperation` runs its closure up to `retries` times. -/
def setupPeer (dial : Nat → Bool) (retryBudget : Nat) (st : MeshState) (p : Peer) :
    Option (MeshState × SetupOutcome) :=
  match p.allowedIPs with
  | [] => none
  | key :: _ =>
    match lookupA st.clients key with
    | some _ => some (st, .skipped)
    | none =>
      match hostOf p.endpoint with
      | none => none
      | some host =>
        match lookupA st.connections host with
        | some conn =>
          some ({ st with
            clients := (key, ⟨p.endpoint, some conn, false⟩) :: st.clients }, .reused)
        | none =>
          match firstSuccess dial retryBudget 0 with
          | none => none
          | some k =>
            some (⟨(host, ⟨host⟩) :: st.connections,
              (key, ⟨p.endpoint, some (⟨host⟩ : Conn), true⟩) :: st.clients⟩, .dialed k)

/-- Setup of every configured peer in sequence (the `for _, peer := range
qn.qc.peers` loop at quicmesh.go:168, with the goroutine bodies
serialized); `dialOf` gives each endpoint its dial oracle. -/
def setupAll (dialOf : String → Nat → Bool) (retryBudget : Nat) :
    MeshState → List Peer → Option MeshState
  | st, [] => some st
  | st, p :: ps =>
    match setupPeer (dialOf p.endpoint) retryBudget st p with
    | none => none
    | some (st', _) => setupAll dialOf retryBudget st' ps

/-- Number of entries of an association list carrying key `k`. -/
def countKey {α : Type} (m : List (String × α)) (k : String) : Nat :=
  (m.filter (fun kv => decide (kv.1 = k))).length

/-- C4: peer setup is idempotent and deduplicating.  A peer whose canonical
address `k₁` already has a registered client is skipped: the state is
returned unchanged and no dial attempt is made.  A peer whose remote host
already has a live connection gets a client wrapping exactly that
connection, the connection table is unchanged, and no dial attempt is
made. -/
theorem setupPeer_idempotent_dedup
    (dial : Nat → Bool) (retryBudget : Nat) (st₁ st₂ : MeshState)
    (e₁ e₂ k₁ k₂ : String) (r₁ r₂ : List String)
    (c : Client) (conn : Conn) (host : String)
    (h₁ : lookupA st₁.clients k₁ = some c)
    (h₂ : lookupA st₂.clients k₂ = none)
    (hh : hostOf e₂ = some host)
    (hc : lookupA st₂.connections host = some conn) :
    (setupPeer dial retryBudget st₁ ⟨e₁, k₁ :: r₁⟩ = some (st₁, .skipped) ∧
      SetupOutcome.attempts .skipped = 0) ∧
    (setupPeer dial retryBudget st₂ ⟨e₂, k₂ :: r₂⟩ =
        some ({ st₂ with clients := (k₂, ⟨e₂, some conn, false⟩) :: st₂.clients },
          .reused) ∧
      SetupOutcome.attempts .reused = 0) := by
  constructor
  · exact ⟨by simp only [setupPeer, h₁], rfl⟩
  · exact ⟨by simp only [setupPeer, h₂, hh, hc], rfl⟩

/-- Witness for C4: a state already holding a client for "10.1.0.3" skips
that peer's setup, and a state holding a connection for host "10.0.0.3"
hands it to the new client of a second peer without dialing. -/
theorem setupPeer_idempotent_dedup_witness :
    lookupA (⟨[], [("10.1.0.3", sampleClient)]⟩ : MeshState).clients "10.1.0.3" =
      some sampleClient ∧
    lookupA (⟨[("10.0.0.3", ⟨"10.0.0.3"⟩)], []⟩ : MeshState).clients "10.1.0.3" = none ∧
    hostOf "10.0.0.3:5000" = some "10.0.0.3" ∧
    lookupA (⟨[("10.0.0.3", ⟨"10.0.0.3"⟩)], []⟩ : MeshState).connections "10.0.0.3" =
      some ⟨"10.0.0.3"⟩ ∧
    setupPeer (fun _ => false) 10 ⟨[], [("10.1.0.3", sampleClient)]⟩
        ⟨"10.0.0.2:5000", ["10.1.0.3"]⟩ =
      some (⟨[], [("10.1.0.3", sampleClient)]⟩, .skipped) ∧
    setupPeer (fun _ => false) 10 ⟨[("10.0.0.3", ⟨"10.0.0.3"⟩)], []⟩
        ⟨"10.0.0.3:5000", ["10.1.0.3"]⟩ =
      some (⟨[("10.0.0.3", ⟨"10.0.0.3"⟩)],
        [("10.1.0.3", ⟨"10.0.0.3:5000", some ⟨"10.0.0.3"⟩, false⟩)]⟩, .reused) := by
  have h := setupPeer_idempotent_dedup (fun _ => false) 10
    ⟨[], [("10.1.0.3", sampleClient)]⟩ ⟨[("10.0.0.3", ⟨"10.0.0.3"⟩)], []⟩
    "10.0.0.2:5000" "10.0.0.3:5000" "10.1.0.3" "10.1.0.3" [] []
    sampleClient ⟨"10.0.0.3"⟩ "10.0.0.3"
    (by decide) (by decide) (by decide) (by decide)
  exact ⟨by decide, by decide, by decide, by decide, h.1.1, h.2.1⟩

theorem lookupA_cons {α : Type} (k' : String) (v : α) (m : List (String × α)) (k : String) :
    lookupA ((k', v) :: m) k = if k' = k then some v else lookupA m k := rfl

theorem countKey_cons {α : Type} (k' : String) (v : α) (m : List (String × α)) (k : String) :
    countKey ((k', v) :: m) k = (if k' = k then 1 else 0) + countKey m k := by
  by_cases h : k' = k
  · simp [countKey, List.filter_cons, h, Nat.add_comm]
  · simp [countKey, List.filter_cons, h]

theorem countKey_eq_zero_of_lookupA_none {α : Type} (m : List (String × α)) (k : String)
    (h : lookupA m k = none) : countKey m k = 0 := by
  induction m with
  | nil => rfl
  | cons kv rest ih =>
    obtain ⟨k', v⟩ := kv
    rw [lookupA_cons] at h
    by_cases hk : k' = k
    · rw [if_pos hk] at h; exact absurd h (by simp)
    · rw [if_neg hk] at h
      rw [countKey_cons, if_neg hk, ih h]

theorem countKey_pos_of_lookupA_isSome {α : Type} (m : List (String × α)) (k : String)
    (h : (lookupA m k).isSome) : 1 ≤ countKey m k := by
  induction m with
  | nil => simp [lookupA] at h
  | cons kv rest ih =>
    obtain ⟨k', v⟩ := kv
    rw [lookupA_cons] at h
    rw [countKey_cons]
    by_cases hk : k' = k
    · rw [if_pos hk]; omega
    · rw [if_neg hk]
      rw [if_neg hk] at h
      have := ih h
      omega

theorem lookupA_isSome_cons {α : Type} (k' : String) (v : α) (m : List (String × α))
    (k : String) (h : (lookupA m k).isSome) : (lookupA ((k', v) :: m) k).isSome := by
  rw [lookupA_cons]
  by_cases hk : k' = k
  · simp [hk]
  · simpa [hk]

theorem lookupA_none_cons {α : Type} (k' : String) (v : α) (m : List (String × α))
    (k : String) (hk : k' ≠ k) (h : lookupA m k = none) :
    lookupA ((k', v) :: m) k = none := by
  rw [lookupA_cons, if_neg hk, h]

/-- Case analysis of one peer's setup: either it was skipped because its
canonical key already had a client (state unchanged), or a new client for
the canonical key was registered and the connection table either stayed as
it was (host already connected) or grew by the freshly dialed host; in the
non-skipped case the peer's host is connected afterwards. -/
theorem setupPeer_spec (dial : Nat → Bool) (b : Nat) (st : MeshState) (p : Peer)
    (st' : MeshState) (o : SetupOutcome)
    (h : setupPeer dial b st p = some (st', o)) :
    (st' = st ∧ o = .skipped ∧
      ∃ key r c, p.allowedIPs = key :: r ∧ lookupA st.clients key = some c) ∨
    (∃ key r cl, p.allowedIPs = key :: r ∧ lookupA st.clients key = none ∧
      st'.clients = (key, cl) :: st.clients ∧
      (∀ host, hostOf p.endpoint = some host → (lookupA st'.connections host).isSome) ∧
      (st'.connections = st.connections ∨
        ∃ host, hostOf p.endpoint = some host ∧ lookupA st.connections host = none ∧
          st'.connections = (host, ⟨host⟩) :: st.connections)) := by
  simp only [setupPeer] at h
  split at h
  · exact absurd h (by simp)
  · rename_i key r hips
    split at h
    · rename_i c hc
      left
      obtain ⟨h1, h2⟩ := Option.some.inj h |> Prod.mk.inj
      exact ⟨h1.symm, h2.symm, key, r, c, hips, hc⟩
    · rename_i hc
      split at h
      · exact absurd h (by simp)
      · rename_i host hhost
        split at h
        · rename_i conn hconn
          obtain ⟨h1, _⟩ := Option.some.inj h |> Prod.mk.inj
          right
          refine ⟨key, r, ⟨p.endpoint, some conn, false⟩, hips, hc, ?_, ?_, Or.inl ?_⟩
          · rw [← h1]
          · intro host' hhost'
            rw [hhost'] at hhost
            obtain rfl := Option.some.inj hhost
            rw [← h1]
            simp only
            exact Option.isSome_iff_exists.mpr ⟨conn, hconn⟩
          · rw [← h1]
        · rename_i hconn
          split at h
          · exact absurd h (by simp)
          · rename_i k hk
            obtain ⟨h1, _⟩ := Option.some.inj h |> Prod.mk.inj
            right
            refine ⟨key, r, ⟨p.endpoint, some ⟨host⟩, true⟩, hips, hc, ?_, ?_, Or.inr ?_⟩
            · rw [← h1]
            · intro host' hhost'
              rw [hhost'] at hhost
              obtain rfl := Option.some.inj hhost
              rw [← h1]
              simp [lookupA_cons]
            · exact ⟨host, hhost, hconn, by rw [← h1]⟩

/-- The canonical routing keys (`allowedIPs[0]`) of a peer list. -/
def peerKeys (ps : List Peer) : List String :=
  ps.filterMap (fun p => p.allowedIPs.head?)

theorem setupAll_clients_le (dialOf : String → Nat → Bool) (b : Nat) (ps : List Peer) :
    ∀ st st', setupAll dialOf b st ps = some st' →
    st'.clients.length ≤ st.clients.length + ps.length := by
  induction ps with
  | nil =>
    intro st st' h
    obtain rfl := Option.some.inj h
    simp
  | cons p qs ih =>
    intro st st' h
    simp only [setupAll] at h
    split at h
    · exact absurd h (by simp)
    · rename_i st₁ o hstep
      have hrest := ih st₁ st' h
      rcases setupPeer_spec _ _ _ _ _ _ hstep with
        ⟨rfl, -, -⟩ | ⟨key, r, cl, -, -, hcl, -, -⟩
      · simp only [List.length_cons]
        omega
      · have : st₁.clients.length = st.clients.length + 1 := by rw [hcl]; rfl
        simp only [List.length_cons]
        omega

theorem setupAll_countKey_le (dialOf : String → Nat → Bool) (b : Nat) (ps : List Peer) :
    ∀ st st', setupAll dialOf b st ps = some st' →
    (∀ k, countKey st.connections k ≤ 1) →
    ∀ k, countKey st'.connections k ≤ 1 := by
  induction ps with
  | nil =>
    intro st st' h hok
    obtain rfl := Option.some.inj h
    exact hok
  | cons p qs ih =>
    intro st st' h hok
    simp only [setupAll] at h
    split at h
    · exact absurd h (by simp)
    · rename_i st₁ o hstep
      refine ih st₁ st' h ?_
      rcases setupPeer_spec _ _ _ _ _ _ hstep with
        ⟨rfl, -, -⟩ | ⟨key, r, cl, -, -, -, -, hconn⟩
      · exact hok
      · rcases hconn with heq | ⟨host, -, hnone, heq⟩
        · rw [heq]; exact hok
        · intro k
          rw [heq, countKey_cons]
          by_cases hk : host = k
          · have h0 : countKey st.connections k = 0 :=
              countKey_eq_zero_of_lookupA_none _ _ (hk ▸ hnone)
            rw [if_pos hk]
            omega
          · rw [if_neg hk]
            have := hok k
            omega

theorem setupAll_host_mono (dialOf : String → Nat → Bool) (b : Nat) (ps : List Peer) :
    ∀ st st', setupAll dialOf b st ps = some st' →
    ∀ h0, (lookupA st.connections h0).isSome →
    (lookupA st'.connections h0).isSome := by
  induction ps with
  | nil =>
    intro st st' h h0 hs
    obtain rfl := Option.some.inj h
    exact hs
  | cons p qs ih =>
    intro st st' h h0 hs
    simp only [setupAll] at h
    split at h
    · exact absurd h (by simp)
    · rename_i st₁ o hstep
      refine ih st₁ st' h h0 ?_
      rcases setupPeer_spec _ _ _ _ _ _ hstep with
        ⟨rfl, -, -⟩ | ⟨key, r, cl, -, -, -, -, hconn⟩
      · exact hs
      · rcases hconn with heq | ⟨host, -, -, heq⟩
        · rw [heq]; exact hs
        · rw [heq]; exact lookupA_isSome_cons _ _ _ _ hs

theorem mem_peerKeys_cons (q : Peer) (qs : List Peer) (k : String)
    (h : k ∈ peerKeys qs) : k ∈ peerKeys (q :: qs) := by
  simp only [peerKeys, List.filterMap_cons]
  cases q.allowedIPs.head? with
  | none => exact h
  | some k' => exact List.mem_cons_of_mem k' h

theorem setupAll_host_present (dialOf : String → Nat → Bool) (b : Nat) (ps : List Peer) :
    ∀ st st', setupAll dialOf b st ps = some st' →
    (peerKeys ps).Nodup →
    (∀ k, k ∈ peerKeys ps → lookupA st.clients k = none) →
    ∀ p ∈ ps, ∀ h0, hostOf p.endpoint = some h0 →
    (lookupA st'.connections h0).isSome := by
  induction ps with
  | nil =>
    intro st st' _ _ _ p hp
    exact absurd hp (List.not_mem_nil p)
  | cons q qs ih =>
    intro st st' h hnd hfresh p hp h0 hh0
    simp only [setupAll] at h
    split at h
    · exact absurd h (by simp)
    · rename_i st₁ o hstep
      rcases List.mem_cons.mp hp with rfl | hpqs
      · rcases setupPeer_spec _ _ _ _ _ _ hstep with
          ⟨-, -, key, r, c, hips, hsome⟩ | ⟨key, r, cl, -, -, -, hpres, -⟩
        · have hks : key ∈ peerKeys (p :: qs) := by
            simp only [peerKeys, List.filterMap_cons, hips, List.head?_cons]
            exact List.mem_cons_self key _
          rw [hfresh key hks] at hsome
          exact absurd hsome (by simp)
        · exact setupAll_host_mono dialOf b qs st₁ st' h h0 (hpres h0 hh0)
      · rcases setupPeer_spec _ _ _ _ _ _ hstep with
          ⟨rfl, -, -⟩ | ⟨key, r, cl, hips, -, hcl, -, -⟩
        · refine ih st₁ st' h ?_ ?_ p hpqs h0 hh0
          · cases hq : q.allowedIPs.head? with
            | none => simpa [peerKeys, List.filterMap_cons, hq] using hnd
            | some kq =>
              simp only [peerKeys, List.filterMap_cons, hq] at hnd
              exact hnd.of_cons
          · intro k hk
            exact hfresh k (mem_peerKeys_cons q qs k hk)
        · refine ih st₁ st' h ?_ ?_ p hpqs h0 hh0
          · simp only [peerKeys, List.filterMap_cons, hips, List.head?_cons] at hnd
            exact hnd.of_cons
          · intro k hk
            have hkey : key ∉ peerKeys qs := by
              simp only [peerKeys, List.filterMap_cons, hips, List.head?_cons] at hnd
              exact (List.nodup_cons.mp hnd).1
            have hne : key ≠ k := fun he => hkey (he ▸ hk)
            rw [hcl]
            exact lookupA_none_cons key cl st.clients k hne
              (hfresh k (mem_peerKeys_cons q qs k hk))

/-- C9: starting from the empty registry of `NewQuicMesh`, a completed
setup of `N` configured peers leaves at most `N` client entries, never
more than one connection entry per remote host, and — when the peers'
canonical keys are pairwise distinct — exactly one connection entry for
the host of every configured peer, in particular for two peers sharing
the same remote host. -/
theorem setupAll_registry_invariants
    (dialOf : String → Nat → Bool) (retryBudget : Nat) (peers : List Peer)
    (st' : MeshState)
    (h : setupAll dialOf retryBudget initialState peers = some st') :
    st'.clients.length ≤ peers.length ∧
    (∀ h0 : String, countKey st'.connections h0 ≤ 1) ∧
    ((peerKeys peers).Nodup →
      ∀ p ∈ peers, ∀ h0, hostOf p.endpoint = some h0 →
        countKey st'.connections h0 = 1) := by
  have hle : ∀ h0 : String, countKey st'.connections h0 ≤ 1 :=
    setupAll_countKey_le dialOf retryBudget peers initialState st' h
      (fun k => by
        rw [countKey_eq_zero_of_lookupA_none initialState.connections k rfl]
        omega)
  refine ⟨?_, hle, ?_⟩
  · have := setupAll_clients_le dialOf retryBudget peers initialState st' h
    simpa [initialState] using this
  · intro hnd p hp h0 hh0
    have hpres := setupAll_host_present dialOf retryBudget peers initialState st' h
      hnd (fun k _ => rfl) p hp h0 hh0
    have h1 := countKey_pos_of_lookupA_isSome st'.connections h0 hpres
    have h2 := hle h0
    omega

/-- Three configured peers, the last two sharing remote host 10.0.0.3. -/
def meshPeers : List Peer :=
  [⟨"10.0.0.2:5000", ["10.1.0.2"]⟩,
   ⟨"10.0.0.3:5000", ["10.1.0.3"]⟩,
   ⟨"10.0.0.3:6000", ["10.1.0.4"]⟩]

/-- Registry after setting up `meshPeers` with every dial succeeding. -/
def meshFinal : MeshState :=
  ⟨[("10.0.0.3", ⟨"10.0.0.3"⟩), ("10.0.0.2", ⟨"10.0.0.2"⟩)],
   [("10.1.0.4", ⟨"10.0.0.3:6000", some ⟨"10.0.0.3"⟩, false⟩),
    ("10.1.0.3", ⟨"10.0.0.3:5000", some ⟨"10.0.0.3"⟩, true⟩),
    ("10.1.0.2", ⟨"10.0.0.2:5000", some ⟨"10.0.0.2"⟩, true⟩)]⟩

/-- Witness for C9: on three peers, two of them sharing host 10.0.0.3,
startup leaves three client entries (≤ N) and exactly one connection entry
for the shared host. -/
theorem setupAll_registry_invariants_witness :
    setupAll (fun _ _ => true) 10 initialState meshPeers = some meshFinal ∧
    (peerKeys meshPeers).Nodup ∧
    meshFinal.clients.length ≤ meshPeers.length ∧
    countKey meshFinal.connections "10.0.0.3" = 1 := by
  have hs : setupAll (fun _ _ => true) 10 initialState meshPeers = some meshFinal := by
    decide
  have h := setupAll_registry_invariants (fun _ _ => true) 10 meshPeers meshFinal hs
  refine ⟨hs, by decide, h.1, ?_⟩
  exact h.2.2 (by decide) ⟨"10.0.0.3:5000", ["10.1.0.3"]⟩ (by decide)
    "10.0.0.3" (by decide)

/-! ## Retry loop (`RetryOperation`, invoked at quicmesh.go:189) -/

/-- `retryInterval = 5 * time.Second`, in seconds (quicmesh.go:17). -/
def retryInterval : Nat := 5

/-- `retries = 10` (quicmesh.go:18). -/
def retries : Nat := 10

/-- Observable behavior of one run of the retry loop: how many attempts it
performed, the waits (in seconds) between consecutive attempts, and whether
it ended in success. -/
structure RetryTrace where
  attempts : Nat
  waits : List Nat
  success : Bool
deriving DecidableEq

/-- Modelled from the spec: the body of `RetryOperation` is not under src/
(only its call site at quicmesh.go:189 is).  Per the spec (§4.3), on
failure the loop increments an attempt counter, waits a fixed backoff
interval and retries, capped at `retries` attempts.  `outcomes i` is the
result of the `i`-th execution of the retried closure; the budget counts
the attempts still allowed. -/
def retryTrace (interval : Nat) (outcomes : Nat → Bool) : Nat → Nat → RetryTrace
  | 0, _ => ⟨0, [], false⟩
  | b + 1, i =>
    if outcomes i then ⟨1, [], true⟩
    else if b = 0 then ⟨1, [], false⟩
    else
      let t := retryTrace interval outcomes b (i + 1)
      ⟨t.attempts + 1, interval :: t.waits, t.success⟩

theorem retryTrace_spec (interval : Nat) (outcomes : Nat → Bool) (b : Nat) :
    ∀ i, 1 ≤ b →
    1 ≤ (retryTrace interval outcomes b i).attempts ∧
    (retryTrace interval outcomes b i).attempts ≤ b ∧
    (retryTrace interval outcomes b i).waits =
      List.replicate ((retryTrace interval outcomes b i).attempts - 1) interval ∧
    ((retryTrace interval outcomes b i).success = false →
      (retryTrace interval outcomes b i).attempts = b) := by
  induction b with
  | zero => intro i h; omega
  | succ b ih =>
    intro i _
    by_cases ho : outcomes i
    · simp [retryTrace, ho]
    · by_cases hb0 : b = 0
      · subst hb0
        simp [retryTrace, ho]
      · have hb1 : 1 ≤ b := Nat.one_le_iff_ne_zero.mpr hb0
        have ht := ih (i + 1) hb1
        simp only [retryTrace, if_neg ho, if_neg hb0]
        obtain ⟨a, ha⟩ : ∃ a, (retryTrace interval outcomes b (i + 1)).attempts = a + 1 :=
          ⟨(retryTrace interval outcomes b (i + 1)).attempts - 1, by omega⟩
        refine ⟨by omega, by omega, ?_, ?_⟩
        · simp only [ha, Nat.add_sub_cancel, List.replicate_succ]
          have hw := ht.2.2.1
          rw [hw, ha, Nat.add_sub_cancel]
        · intro hsf
          have := ht.2.2.2 hsf
          omega

/-- C6: a run of the dial retry loop with the configured parameters
performs at most `retries = 10` attempts; every wait between consecutive
attempts is exactly `retryInterval = 5` seconds (one wait fewer than
attempts); and when no attempt succeeds the loop stops after exactly the
10-attempt budget — no unbounded retrying. -/
theorem retryTrace_bounded_backoff (outcomes : Nat → Bool) :
    (retryTrace retryInterval outcomes retries 0).attempts ≤ retries ∧
    (retryTrace retryInterval outcomes retries 0).waits =
      List.replicate ((retryTrace retryInterval outcomes retries 0).attempts - 1)
        retryInterval ∧
    ((retryTrace retryInterval outcomes retries 0).success = false →
      (retryTrace retryInterval outcomes retries 0).attempts = retries) := by
  have h := retryTrace_spec retryInterval outcomes retries 0 (by rw [retries]; omega)
  exact ⟨h.2.1, h.2.2.1, h.2.2.2⟩

/-- Witness for C6: when every dial fails, the loop performs exactly 10
attempts with nine 5-second waits and stops. -/
theorem retryTrace_bounded_backoff_witness :
    (retryTrace retryInterval (fun _ => false) retries 0).success = false ∧
    (retryTrace retryInterval (fun _ => false) retries 0).attempts = retries ∧
    (retryTrace retryInterval (fun _ => false) retries 0).attempts ≤ retries ∧
    (retryTrace retryInterval (fun _ => false) retries 0).waits =
      List.replicate ((retryTrace retryInterval (fun _ => false) retries 0).attempts - 1)
        retryInterval := by
  have h := retryTrace_bounded_backoff (fun _ => false)
  exact ⟨by decide, h.2.2 (by decide), h.1, h.2.1⟩

/-! ## NAT gating (`Start` and `findPortBinding`, quicmesh.go:80-90 and 124-141) -/

/-- Result of `findPortBinding` as seen by a caller: on a symmetric NAT it
returns the error "node is behind Symmetric NAT" (quicmesh.go:130-133);
otherwise the STUN binding (quicmesh.go:140). -/
inductive PortBindingResult where
  | symmetricErr
  | ok (binding : String)
deriving DecidableEq

/-- `findPortBinding` (quicmesh.go:124-141): `isSymmetric` is what
`IsSymmetricNAT` reports and `stunBinding` the result of `GetPortBinding`
(`none` = request failed).  A failed STUN binding request hits
`logger.Fatalf` (quicmesh.go:137), modelled as `none` = process exit. -/
def findPortBinding (isSymmetric : Bool) (stunBinding : Option String) :
    Option PortBindingResult :=
  if isSymmetric then some .symmetricErr
  else
    match stunBinding with
    | none => none
    | some b => some (.ok b)

/-- What `Start` launched. -/
structure StartResult where
  serverStarted : Bool
  dialTasksStarted : Bool
  portBinding : Option PortBindingResult
deriving DecidableEq

/-- The NAT gating and task launching of `Start` (quicmesh.go:80-88):
when the server is enabled it calls `findPortBinding` but discards the
returned value, then `setupTunnel` starts the server accept goroutine iff
`!disableServer` and the per-peer dial goroutines iff `!disableClient`,
unconditionally on the NAT classification.  `none` models process
termination inside `findPortBinding`. -/
def startGating (disableClient disableServer isSymmetric : Bool)
    (stunBinding : Option String) : Option StartResult :=
  if disableServer then
    some ⟨false, !disableClient, none⟩
  else
    match findPortBinding isSymmetric stunBinding with
    | none => none
    | some r => some ⟨true, !disableClient, some r⟩

/-- C2 (refuting the claim as stated): with server mode enabled and NAT
classification reporting symmetric, `Start` still launches the server
accept goroutine — the error `findPortBinding` returns for a symmetric NAT
is discarded at quicmesh.go:82 — while the client dial tasks also run. -/
theorem startGating_symmetric_still_starts_server :
    startGating false false true none =
      some ⟨true, true, some .symmetricErr⟩ ∧
    findPortBinding true none = some .symmetricErr ∧
    (startGating false false true none).map StartResult.serverStarted = some true ∧
    (startGating false false true none).map StartResult.dialTasksStarted = some true := by
  exact ⟨rfl, rfl, rfl, rfl⟩

/-- C3 (refuting the claim as stated): every one of the three supposedly
recoverable failures reaches a process-terminating `logger.Fatalf`: a STUN
binding-discovery failure (quicmesh.go:137), a peer whose 10 dial attempts
are all exhausted (quicmesh.go:213), and a device read failure in the
forwarding loop (quicmesh.go:228-229). -/
theorem fatal_paths_terminate :
    startGating false false false none = none ∧
    setupPeer (fun _ => false) retries initialState ⟨"10.0.0.2:5000", ["10.1.0.2"]⟩ =
      none ∧
    forwardLoop [] zeroBuf [.err] = ([], .fatal) := by
  refine ⟨rfl, by decide, rfl⟩

/-! ## Startup sequencing of `setupTunnel` (quicmesh.go:143-168) -/

/-- Startup events: the server goroutine launch (`go func` at
quicmesh.go:146), the listener becoming ready, the server accept loop
completing, the return of `wg.Wait()` (quicmesh.go:162), and the launch of
peer `i`'s dial goroutine (quicmesh.go:170). -/
inductive Ev where
  | serverGoStart
  | serverReady
  | serverDone
  | wgWaitReturn
  | dialStart (peerIdx : Nat)
deriving DecidableEq

/-- Modelled from the spec: the body of `StartServer` is not under src/
(only its call site at quicmesh.go:160).  Per the spec (§6) `StartServer`
blocks and never returns on success until cancelled, and (§4.5) the
startup synchronization gates only on "listener is ready", so the
`sync.WaitGroup` (`wg.Add(1)` at quicmesh.go:145, `wg.Wait()` at
quicmesh.go:162) is released when the listener is ready.  The resulting
startup event trace of `setupTunnel`. -/
def setupTunnelTrace (numPeers : Nat) (disableClient disableServer : Bool) : List Ev :=
  (if disableServer then [] else [.serverGoStart, .serverReady, .wgWaitReturn]) ++
  (if disableClient then [] else (List.range numPeers).map .dialStart)

/-- C7: with server mode enabled, the startup trace contains no
server-completion event at all, yet every per-peer dial task is launched;
the trace is exactly the server launch, listener readiness and the
readiness-gated `wg.Wait` return, followed by the dial starts — so dialing
is gated only on listener readiness, never on listener termination. -/
theorem setupTunnel_dials_not_gated_on_completion (n i : Nat) (hi : i < n) :
    Ev.serverDone ∉ setupTunnelTrace n false false ∧
    Ev.dialStart i ∈ setupTunnelTrace n false false ∧
    setupTunnelTrace n false false =
      [.serverGoStart, .serverReady, .wgWaitReturn] ++ (List.range n).map .dialStart := by
  refine ⟨?_, ?_, rfl⟩
  · simp [setupTunnelTrace]
  · simp only [setupTunnelTrace, if_neg Bool.false_ne_true, List.mem_append,
      List.mem_map]
    right
    exact ⟨i, List.mem_range.mpr hi, rfl⟩

/-- Witness for C7: with two peers, dial task 0 starts and no
server-completion event exists. -/
theorem setupTunnel_dials_not_gated_on_completion_witness :
    (0 : Nat) < 2 ∧
    Ev.serverDone ∉ setupTunnelTrace 2 false false ∧
    Ev.dialStart 0 ∈ setupTunnelTrace 2 false false := by
  have h := setupTunnel_dials_not_gated_on_completion 2 0 (by omega)
  exact ⟨by omega, h.1, h.2.1⟩

/-! ## `Stop` (quicmesh.go:93-95) -/

/-- Observable process state at the time `Stop` is invoked: which
long-lived tasks are running, whether the TUN device is open, and the
registry contents. -/
structure ProcState where
  serverRunning : Bool
  dialTasksRunning : Nat
  forwardLoopRunning : Bool
  deviceOpen : Bool
  registry : MeshState
deriving DecidableEq

/-- `Stop` (quicmesh.go:93-95): its whole body is a single log call; it
signals no cancellation, closes nothing and releases nothing, so the
process state is returned unchanged. -/
def Stop (p : ProcState) : ProcState := p

/-- A process with the server, two dial tasks and the forwarding loop
running, the device open and a populated registry. -/
def runningProc : ProcState :=
  ⟨true, 2, true, true,
    ⟨[("10.0.0.3", ⟨"10.0.0.3"⟩)], [("10.1.0.3", sampleClient)]⟩⟩

/-- C8 (refuting the claim as stated): `Stop` returns with every task
still running, the TUN device still open and the registry entries still
present — it is the identity on the process state. -/
theorem stop_releases_nothing :
    Stop runningProc = runningProc ∧
    (Stop runningProc).serverRunning = true ∧
    (Stop runningProc).dialTasksRunning = 2 ∧
    (Stop runningProc).forwardLoopRunning = true ∧
    (Stop runningProc).deviceOpen = true ∧
    (Stop runningProc).registry.clients ≠ [] := by
  exact ⟨rfl, rfl, rfl, rfl, rfl, by decide⟩

end QuicMesh
